import Mathlib

/-!
Verification of the NPU caching allocator and asynchronous task queue
(`NPUCachingAllocator.cpp`, `NPUQueue.cpp`, `XlogyKernelNpu.cpp`) against
their natural-language specification.

The C++ code is shallowly embedded: machine `size_t` arithmetic is modelled
over `Nat` with explicit reduction modulo `2 ^ 64` wherever the source can
overflow, pools are sorted lists mirroring `std::set` iteration order, and
the stateful operations become pure functions returning updated state plus
an event trace.
-/

namespace NPUAlloc

/-- `2 ^ 64`, the modulus of C++ `size_t` arithmetic on the target platform. -/
def U64 : Nat := 2 ^ 64

/-- `kMinBlockSize`: all sizes are rounded to at least 512 bytes. -/
def kMinBlockSize : Nat := 512

/-- `kSmallSize`: largest "small" allocation is 1 MiB. -/
def kSmallSize : Nat := 1048576

/-- `kSmallBuffer`: "small" allocations are packed in 2 MiB blocks. -/
def kSmallBuffer : Nat := 2097152

/-- `kLargeBuffer`: "large" allocations may be packed in 20 MiB blocks. -/
def kLargeBuffer : Nat := 20971520

/-- `kMinLargeAlloc`: allocations between 1 and 10 MiB may use `kLargeBuffer`. -/
def kMinLargeAlloc : Nat := 10485760

/-- `kRoundLarge`: round up large allocations to 2 MiB multiples. -/
def kRoundLarge : Nat := 2097152

/-- `DeviceCachingAllocator::round_size`.  The C++ source computes
`size = size + 32` in `size_t` (which may wrap), returns `kMinBlockSize`
when the sum is below it, and otherwise rounds up to the next multiple of
`kMinBlockSize`, again in `size_t` arithmetic. -/
def round_size (size : Nat) : Nat :=
  let size1 := (size + 32) % U64
  if size1 < kMinBlockSize then
    kMinBlockSize
  else
    kMinBlockSize * (((size1 + kMinBlockSize - 1) % U64) / kMinBlockSize) % U64

/-- `DeviceCachingAllocator::get_allocation_size`: the segment size used when
the driver must be called. -/
def get_allocation_size (size : Nat) : Nat :=
  if size ≤ kSmallSize then
    kSmallBuffer
  else if size < kMinLargeAlloc then
    kLargeBuffer
  else
    kRoundLarge * (((size + kRoundLarge - 1) % U64) / kRoundLarge) % U64

/-- The two free pools of a device allocator. -/
inductive PoolKind where
  | small : PoolKind
  | large : PoolKind
deriving DecidableEq, Repr

/-- `DeviceCachingAllocator::get_pool`: small pool iff rounded size is at
most `kSmallSize`. -/
def get_pool (size : Nat) : PoolKind :=
  if size ≤ kSmallSize then PoolKind.small else PoolKind.large

/-- `DeviceCachingAllocator::should_split`.  `remaining = block->size - size`
in `size_t` arithmetic; a small-pool block splits when the remainder is at
least `kMinBlockSize`, a large-pool block splits when the request is below
`max_split_size` and the remainder exceeds `kSmallSize`. -/
def should_split (block_is_small : Bool) (block_size : Nat) (max_split : Nat)
    (size : Nat) : Bool :=
  let remaining := (U64 + block_size - size) % U64
  if block_is_small then
    decide (kMinBlockSize ≤ remaining)
  else
    decide (size < max_split) && decide (kSmallSize < remaining)

/-- A cached block as keyed by the pool's ordering: allocation stream,
size in bytes and device address (`Block` fields `stream`, `size`, `ptr`),
plus the `gc_count` aging counter used by the fragmentation GC. -/
structure Block where
  stream : Nat
  size : Nat
  ptr : Nat
  gc_count : Nat
deriving DecidableEq, Repr

/-- `BlockComparator`: strict ordering by `(stream, size, ptr)`. -/
def blockLt (a b : Block) : Bool :=
  if a.stream ≠ b.stream then decide (a.stream < b.stream)
  else if a.size ≠ b.size then decide (a.size < b.size)
  else decide (a.ptr < b.ptr)

/-- `std::set::lower_bound`: first element of the ascending pool that is not
strictly below the search key. -/
def lowerBound (key : Block) : List Block → Option Block
  | [] => none
  | b :: bs => if blockLt b key then lowerBound key bs else some b

/-- The aging pass at the top of `get_free_block`: when the fraction GC is
active (`set_fraction` with a positive `garbage_collection_threshold`) every
block still in the pool gains one `gc_count`. -/
def bump_gc (gc_active : Bool) (pool : List Block) : List Block :=
  if gc_active then
    pool.map (fun b => { b with gc_count := b.gc_count + 1 })
  else
    pool

/-- `DeviceCachingAllocator::get_free_block`.  When the fraction GC is active
every pool block ages by one; then a lower-bound search for
`(stream, size, nullptr)` runs, and the candidate is rejected if it is on
another stream, if it is oversize while the request is not, or if the request
is oversize and the candidate reaches `size + kLargeBuffer` — a `size_t`
sum, so it is reduced modulo `2 ^ 64` and wraps for requests within
`kLargeBuffer` of the type's maximum.  On success the block's age resets and
it leaves the pool. -/
def get_free_block (max_split : Nat) (gc_active : Bool) (pool : List Block)
    (stream size : Nat) : Option Block × List Block :=
  let pool1 := bump_gc gc_active pool
  match lowerBound ⟨stream, size, 0, 0⟩ pool1 with
  | none => (none, pool1)
  | some b =>
    if b.stream ≠ stream then
      (none, pool1)
    else if size < max_split ∧ max_split ≤ b.size then
      (none, pool1)
    else if max_split ≤ size ∧ (size + kLargeBuffer) % U64 ≤ b.size then
      (none, pool1)
    else
      (some { b with gc_count := 0 }, pool1.erase b)

/-- A pool list mirrors `std::set` iteration: strictly ascending in
`blockLt`. -/
def PoolSorted (l : List Block) : Prop :=
  l.Pairwise (fun a b => blockLt a b = true)

/-- A large-pool block as seen by the fragmentation GC: its byte size,
whether it is split (`prev`/`next` non-null) and its age counter. -/
structure GCBlock where
  size : Nat
  is_split : Bool
  gc_count : Nat
deriving DecidableEq, Repr

/-- The slice of `DeviceCachingAllocator` state read and written by
`garbage_collect_cached_blocks`. -/
structure GCState where
  large_blocks : List GCBlock
  total_allocated_memory : Nat
deriving DecidableEq, Repr

/-- Driver-facing calls issued by the GC: `npuSynchronizeDevice(true)` and
`aclrtFree` (through `release_block`). -/
inductive DriverCall where
  | syncDevice : DriverCall
  | free (size : Nat) : DriverCall
deriving DecidableEq, Repr

/-- One pass of the GC's inner `while` over the large pool: free every
unsplit block whose age reaches the pass's fixed threshold
`total_age / count`, front to back.  The C++ `double` comparison
`gc_count >= total_age / count` is modelled exactly by cross multiplication
against the snapshot values taken at the head of the outer iteration.
Returns the surviving pool and the blocks freed. -/
def gc_sweep (total_age count : Nat) : List GCBlock → List GCBlock × List GCBlock
  | [] => ([], [])
  | b :: bs =>
    let (kept, freed) := gc_sweep total_age count bs
    if !b.is_split && decide (total_age ≤ b.gc_count * count) then
      (kept, b :: freed)
    else
      (b :: kept, freed)

/-- The GC's outer loop: repeat sweeps while the reclaim target is unmet,
the last sweep freed something, and freeable blocks remain.  `fuel` bounds
the recursion; every productive sweep strictly decreases the freeable count,
so `count + 1` fuel always suffices. -/
def gc_loop (target : Nat) : Nat → List GCBlock → Nat → Nat → Nat → Nat →
    List GCBlock × Nat × List DriverCall
  | 0, blocks, _, _, _, total_alloc => (blocks, total_alloc, [])
  | fuel + 1, blocks, reclaimed, total_age, count, total_alloc =>
    if reclaimed < target ∧ 0 < count then
      let (kept, freed) := gc_sweep total_age count blocks
      if freed.isEmpty then
        (blocks, total_alloc, [])
      else
        let freed_bytes := (freed.map (fun b => b.size)).sum
        let freed_age := (freed.map (fun b => b.gc_count)).sum
        let (blocks', total_alloc', evs) :=
          gc_loop target fuel kept (reclaimed + freed_bytes)
            (total_age - freed_age) (count - freed.length)
            (total_alloc - freed_bytes)
        (blocks', total_alloc', freed.map (fun b => DriverCall.free b.size) ++ evs)
    else
      (blocks, total_alloc, [])

/-- `DeviceCachingAllocator::garbage_collect_cached_blocks`.  `gc_threshold`
is the already-cast `size_t` value of `garbage_collection_threshold *
allowed_memory_maximum`.  If total allocated memory exceeds it and at least
one unsplit large block exists, the source calls
`c10_npu::npuSynchronizeDevice(true)` and then repeatedly frees unsplit
large blocks of at least average age. -/
def garbage_collect_cached_blocks (gc_threshold : Nat) (st : GCState) :
    GCState × List DriverCall :=
  if st.total_allocated_memory ≤ gc_threshold then
    (st, [])
  else
    let target := st.total_allocated_memory - gc_threshold
    let freeable := st.large_blocks.filter (fun b => !b.is_split)
    let total_age := (freeable.map (fun b => b.gc_count)).sum
    let count := freeable.length
    if count = 0 then
      (st, [])
    else
      let (blocks', total_alloc', evs) :=
        gc_loop target (count + 1) st.large_blocks 0 total_age count
          st.total_allocated_memory
      (⟨blocks', total_alloc'⟩, DriverCall.syncDevice :: evs)

/-- `kQueueCapacity`: the submission ring holds 4096 slots. -/
def kQueueCapacity : Nat := 4096

/-- The ring indices of `Repository`: `write_idx.idx` and `read_idx.idx`. -/
structure RingIdx where
  write_idx : Nat
  read_idx : Nat
deriving DecidableEq, Repr

/-- `Repository::IsFullQueue`: `((write_idx.idx + 1) & (kQueueCapacity - 1))
== read_idx.idx`. -/
def IsFullQueue (s : RingIdx) : Bool :=
  ((s.write_idx + 1) &&& (kQueueCapacity - 1)) == s.read_idx

/-- Modelled from the spec: `Repository::IsEmptyQueue` lives in the
repository's header, which is not among the provided sources.  The spec's
ring is empty exactly when the head and tail indices coincide (§3 "Ring",
§4.D consumer blocks on `efd_read` when the ring is empty). -/
def IsEmptyQueue (s : RingIdx) : Bool :=
  s.write_idx == s.read_idx

/-- Modelled from the spec: the ring's initial indices are not in the
provided sources (they are set in the header); the spec's ring starts empty
with both monotone-mod indices at zero. -/
def initRing : RingIdx := ⟨0, 0⟩

/-- `Repository::WriteQueue` (index part): fail when the ring is full,
otherwise copy into slot `write_idx` and advance `write_idx` by one modulo
the capacity bitmask. -/
def WriteQueue (s : RingIdx) : Option RingIdx :=
  if IsFullQueue s then
    none
  else
    some { s with write_idx := (s.write_idx + 1) &&& (kQueueCapacity - 1) }

/-- State of the ring after `n` producer calls from the empty ring with the
consumer prevented from dequeuing; `none` once a call found the ring full. -/
def writeN : Nat → Option RingIdx
  | 0 => some initRing
  | n + 1 =>
    match writeN n with
    | none => none
    | some s => WriteQueue s

/-- Observable actions of the consumer in `Repository::ReadQueue`: invoking
the execute callback on a slot, invoking the release callback on a slot,
`ReleaseResource()`, and the thrown fatal error. -/
inductive QEvent where
  | call (slot : Nat)
  | release (slot : Nat)
  | releaseResource : QEvent
  | fatalError : QEvent
deriving DecidableEq, Repr

/-- The failure-path drain of `ReadQueue`: `while (!IsEmptyQueue())` release
the record at `read_idx` and advance `read_idx`.  `fuel` bounds recursion;
the ring holds fewer than `kQueueCapacity` records so that fuel suffices. -/
def drainRelease : Nat → RingIdx → RingIdx × List QEvent
  | 0, s => (s, [])
  | fuel + 1, s =>
    if IsEmptyQueue s then
      (s, [])
    else
      let s' := { s with read_idx := (s.read_idx + 1) &&& (kQueueCapacity - 1) }
      let (s'', evs) := drainRelease fuel s'
      (s'', QEvent.release s.read_idx :: evs)

/-- `Repository::ReadQueue`.  `execRet` is the value returned by the
registered execute callback for a given slot.  On a non-zero return the
consumer releases every remaining record, calls `ReleaseResource()` and
throws; on zero it releases the executed record and advances.  The third
component is the C++ return value (`false` also stands for the throwing
branch, which never returns). -/
def ReadQueue (execRet : Nat → Int) (s : RingIdx) :
    RingIdx × List QEvent × Bool :=
  if IsEmptyQueue s then
    (s, [], false)
  else if execRet s.read_idx ≠ 0 then
    let (s', evs) := drainRelease kQueueCapacity s
    (s', QEvent.call s.read_idx ::
      (evs ++ [QEvent.releaseResource, QEvent.fatalError]), false)
  else
    ({ s with read_idx := (s.read_idx + 1) &&& (kQueueCapacity - 1) },
      [QEvent.call s.read_idx, QEvent.release s.read_idx], true)

/-- The slots currently occupied in the ring, in consumption order. -/
def ringSlots (s : RingIdx) : List Nat :=
  (List.range ((kQueueCapacity + s.write_idx - s.read_idx) % kQueueCapacity)).map
    (fun i => (s.read_idx + i) % kQueueCapacity)

/-- One labelled statistic: `Stat` with `current`, `peak`, `allocated`,
`freed`. -/
structure Stat where
  current : Int
  peak : Int
  allocated : Int
  freed : Int
deriving DecidableEq, Repr

/-- The all-zero statistic, the initial value of every `Stat`. -/
def Stat.zero : Stat := ⟨0, 0, 0, 0⟩

/-- `update_stat`: add `amount` to `current`, raise `peak`, and accumulate
positive amounts into `allocated` and negative ones into `freed`. -/
def update_stat (s : Stat) (amount : Int) : Stat :=
  let current := s.current + amount
  { current := current
    peak := max current s.peak
    allocated := if 0 < amount then s.allocated + amount else s.allocated
    freed := if amount < 0 then s.freed + (-amount) else s.freed }

/-- `reset_accumulated_stat`: zero `allocated` and `freed`. -/
def reset_accumulated_stat (s : Stat) : Stat :=
  { s with allocated := 0, freed := 0 }

/-- `reset_peak_stat`: set `peak` to `current`. -/
def reset_peak_stat (s : Stat) : Stat :=
  { s with peak := s.current }

/-- A `StatArray` broken down by `StatType`: aggregate, small pool, large
pool. -/
structure StatArray where
  aggregate : Stat
  small : Stat
  large : Stat
deriving DecidableEq, Repr

/-- The all-zero stat array. -/
def StatArray.zero : StatArray := ⟨Stat.zero, Stat.zero, Stat.zero⟩

/-- `StatTypes`: the `std::array<bool, NUM_TYPES>` of selected stat types an
update applies to — one flag each for aggregate, small pool and large
pool. -/
structure StatTypes where
  aggregate : Bool
  small : Bool
  large : Bool
deriving DecidableEq, Repr

/-- The selection `{AGGREGATE, pool-of-the-block}` built by the malloc and
free paths (`stat_types = {false}` then the two flags set). -/
def pool_stat_types : PoolKind → StatTypes
  | PoolKind.small => ⟨true, true, false⟩
  | PoolKind.large => ⟨true, false, true⟩

/-- `update_stat_array` / `for_each_selected_stat_type`: apply `update_stat`
to exactly the selected stat types. -/
def update_stat_array (a : StatArray) (sel : StatTypes) (amt : Int) : StatArray :=
  { aggregate := if sel.aggregate then update_stat a.aggregate amt else a.aggregate
    small := if sel.small then update_stat a.small amt else a.small
    large := if sel.large then update_stat a.large amt else a.large }

/-- The operations the allocator performs on a `StatArray`: an update under
some selection of stat types, `reset_accumulated_stat` on every type, or
`reset_peak_stat` on every type.  The selection is carried explicitly
because the source does not fix it at every site: most sites build
`{AGGREGATE, pool-of-the-block}` from a zero-initialised `StatTypes`, but
`release_block` declares its `StatTypes stat_types;` default-initialised,
leaving the flags indeterminate before they are read. -/
inductive StatOp where
  | update (sel : StatTypes) (amount : Int)
  | resetAccumulated : StatOp
  | resetPeak : StatOp
deriving DecidableEq, Repr

/-- An update is disciplined when its selection is the
`{AGGREGATE, exactly-one-pool}` pair every initialised call site builds;
resets are always disciplined.  The one undisciplined site in the source is
`release_block`, whose uninitialised `StatTypes` may denote any selection. -/
def disciplined : StatOp → Bool
  | StatOp.update sel _ =>
    sel == pool_stat_types PoolKind.small || sel == pool_stat_types PoolKind.large
  | StatOp.resetAccumulated => true
  | StatOp.resetPeak => true

/-- Apply one statistic operation. -/
def apply_stat_op (a : StatArray) : StatOp → StatArray
  | StatOp.update sel amt => update_stat_array a sel amt
  | StatOp.resetAccumulated =>
    ⟨reset_accumulated_stat a.aggregate, reset_accumulated_stat a.small,
      reset_accumulated_stat a.large⟩
  | StatOp.resetPeak =>
    ⟨reset_peak_stat a.aggregate, reset_peak_stat a.small,
      reset_peak_stat a.large⟩

/-- Fold a whole history of statistic operations from a starting array. -/
def apply_stat_ops (a : StatArray) (ops : List StatOp) : StatArray :=
  ops.foldl apply_stat_op a

/-- The device-allocator statistics structure (`DeviceStats`), at the
granularity the stat-coherence claims need. -/
structure DeviceStats where
  allocation : StatArray
  segment : StatArray
  active : StatArray
  inactive_split : StatArray
  allocated_bytes : StatArray
  reserved_bytes : StatArray
  active_bytes : StatArray
  inactive_split_bytes : StatArray
  oversize_allocations : Stat
  oversize_segments : Stat
  num_alloc_retries : Nat
  num_ooms : Nat
deriving DecidableEq, Repr

/-- Per-device allocator state visible through the wrapper API: the two free
pools, the active set, the per-stream pending event deques (stream paired
with its queue of (event, block pointer) pairs) and the statistics. -/
structure DeviceState where
  small_blocks : List Block
  large_blocks : List Block
  active_blocks : List Block
  npu_events : List (Nat × List (Nat × Nat))
  stats : DeviceStats
deriving DecidableEq, Repr

/-- State of the process-wide `THNCachingAllocator` wrapper: the
`allocated_blocks` map from issued device pointers to their blocks (device
pointers are addresses; `0` is `nullptr`), plus the per-device allocator
state.  `α` is the block payload the device layer consumes. -/
structure THNState (α : Type) where
  allocated_blocks : List (Nat × α)
  device_state : DeviceState

/-- `THNCachingAllocator::get_allocated_block`: look a pointer up in
`allocated_blocks`, returning `none` when the allocator never issued it. -/
def get_allocated_block {α : Type} (st : THNState α) (ptr : Nat) : Option α :=
  match st.allocated_blocks.find? (fun kv => kv.fst == ptr) with
  | none => none
  | some kv => some kv.snd

/-- Remove a pointer's entry from the `allocated_blocks` map (the
`remove = true` mode of `get_allocated_block`). -/
def remove_allocated_block {α : Type} (st : THNState α) (ptr : Nat) :
    THNState α :=
  { st with allocated_blocks :=
      st.allocated_blocks.filter (fun kv => kv.fst ≠ ptr) }

/-- `THNCachingAllocator::free` (the body of `raw_delete`): a null pointer
returns at once; an unknown pointer raises "invalid device pointer";
otherwise the block leaves the map and the per-device `free` runs
(abstracted as `devFree`). -/
def thn_free {α : Type} (devFree : DeviceState → α → DeviceState)
    (st : THNState α) (ptr : Nat) : Except String (THNState α) :=
  if ptr = 0 then
    Except.ok st
  else
    match get_allocated_block st ptr with
    | none => Except.error "invalid device pointer"
    | some b =>
      Except.ok { remove_allocated_block st ptr with
                    device_state := devFree st.device_state b }

/-- `THNCachingAllocator::getBaseAllocation`: look the pointer up (no null
guard in the source) and raise "invalid device pointer" when absent,
otherwise walk the segment chain (abstracted as `devBase`). -/
def thn_getBaseAllocation {α β : Type} (devBase : DeviceState → α → β)
    (st : THNState α) (ptr : Nat) : Except String β :=
  match get_allocated_block st ptr with
  | none => Except.error "invalid device pointer"
  | some b => Except.ok (devBase st.device_state b)

/-- `THNCachingAllocator::eraseStream`: a null pointer returns at once; an
unknown pointer raises "invalid device pointer"; otherwise the per-device
`eraseStream` runs (abstracted as `devErase`). -/
def thn_eraseStream {α : Type} (devErase : DeviceState → α → Nat → DeviceState)
    (st : THNState α) (ptr : Nat) (stream : Nat) :
    Except String (THNState α) :=
  if ptr = 0 then
    Except.ok st
  else
    match get_allocated_block st ptr with
    | none => Except.error "invalid device pointer"
    | some b =>
      Except.ok { st with device_state := devErase st.device_state b stream }

/-- An empty `DeviceStats` value. -/
def DeviceStats.zero : DeviceStats :=
  ⟨StatArray.zero, StatArray.zero, StatArray.zero, StatArray.zero,
    StatArray.zero, StatArray.zero, StatArray.zero, StatArray.zero,
    Stat.zero, Stat.zero, 0, 0⟩

/-- A fresh per-device allocator state. -/
def DeviceState.empty : DeviceState :=
  ⟨[], [], [], [], DeviceStats.zero⟩

/-- Statements of the `xlogy_` in-place kernels' non-contiguous branches
(`!NpuUtils::check_match(&self)`), as written in `XlogyKernelNpu.cpp`:
a local bound to `NpuUtils::format_contiguous`, a local bound to the result
of `xlogy_out_npu_nocheck(input, other, dest)` where `dest` is the tensor
the kernel writes through, and the final `format_fresh_view`. -/
inductive XStmt where
  | letFormatContiguous (name : String) (src : String)
  | letXlogyCall (name : String) (input : String) (dest : String)
  | formatFreshView (dst : String) (src : String)
deriving DecidableEq, Repr

/-- Body of the non-contiguous branch of
`NPUNativeFunctions::xlogy_(Tensor&, const Tensor&)`. -/
def xlogy_inplace_tensor_branch : List XStmt :=
  [ XStmt.letFormatContiguous "contiguousSelf" "self",
    XStmt.letXlogyCall "result" "contiguousSelf" "contiguousSelf",
    XStmt.formatFreshView "self" "result" ]

/-- Body of the non-contiguous branch of
`NPUNativeFunctions::xlogy_(Tensor&, const Scalar&)`. -/
def xlogy_inplace_scalar_branch : List XStmt :=
  [ XStmt.letFormatContiguous "contiguousSelf" "self",
    XStmt.letXlogyCall "result" "contiguousSelf" "result",
    XStmt.formatFreshView "self" "result" ]

/-- Walk a branch body tracking which locals are bound; report the first
kernel invocation whose destination tensor is not yet bound at the point of
use, returning the name being initialised and the unbound destination.  The
binder of a `let` enters scope only after its initialiser is evaluated. -/
def firstUnboundDest (scope : List String) : List XStmt → Option (String × String)
  | [] => none
  | XStmt.letFormatContiguous name _ :: rest =>
    firstUnboundDest (name :: scope) rest
  | XStmt.letXlogyCall name _ dest :: rest =>
    if scope.contains dest then
      firstUnboundDest (name :: scope) rest
    else
      some (name, dest)
  | XStmt.formatFreshView _ _ :: rest =>
    firstUnboundDest scope rest

/-! ## Supporting lemmas -/

theorem mask_eq_mod (n : Nat) : n &&& (kQueueCapacity - 1) = n % kQueueCapacity := by
  have h := Nat.and_pow_two_sub_one_eq_mod n 12
  norm_num at h
  simpa [kQueueCapacity] using h

theorem should_split_false_of_le (bsize max_split q : Nat) (h : max_split ≤ q) :
    should_split false bsize max_split q = false := by
  simp [should_split, Nat.not_lt_of_le h]

theorem writeN_eq (k : Nat) (h : k ≤ kQueueCapacity - 1) :
    writeN k = some ⟨k, 0⟩ := by
  induction k with
  | zero => rfl
  | succ n ih =>
    have hn : n ≤ kQueueCapacity - 1 := by omega
    have hlt : n + 1 < kQueueCapacity := by
      unfold kQueueCapacity at *
      omega
    rw [writeN, ih hn]
    show WriteQueue ⟨n, 0⟩ = some ⟨n + 1, 0⟩
    unfold WriteQueue IsFullQueue
    simp only [mask_eq_mod, Nat.mod_eq_of_lt hlt]
    simp

/-! ## Claim theorems -/

/-- C8 counterexample: the claim's formula `max(512, 512 * ceil((n+32)/512))`
fails at `n = 2^64 - 32`, where the `size_t` addition `size + 32` in
`round_size` wraps to zero and the code returns 512. -/
theorem round_size_claim_counterexample :
    ¬ round_size (2 ^ 64 - 32) =
      max kMinBlockSize
        (kMinBlockSize * ((2 ^ 64 - 32 + 32 + kMinBlockSize - 1) / kMinBlockSize)) := by
  decide

/-- C8 (amended): whenever `n + 32 + 511` does not overflow `size_t`, the
block size used internally by malloc is `max(512, 512 * ceil((n+32)/512))`;
in particular a one-byte request rounds to 512 bytes and draws from the
small pool. -/
theorem round_size_formula (n : Nat) (h : n + 32 + (kMinBlockSize - 1) < U64) :
    round_size n =
      max kMinBlockSize (kMinBlockSize * ((n + 32 + kMinBlockSize - 1) / kMinBlockSize)) ∧
    round_size 1 = kMinBlockSize ∧
    get_pool (round_size 1) = PoolKind.small := by
  refine ⟨?_, by decide, by decide⟩
  have h32 : (n + 32) % U64 = n + 32 := by
    apply Nat.mod_eq_of_lt
    unfold kMinBlockSize at h
    omega
  simp only [round_size, h32]
  by_cases hc : n + 32 < kMinBlockSize
  · rw [if_pos hc]
    have h1 : (n + 32 + kMinBlockSize - 1) / kMinBlockSize = 1 := by
      unfold kMinBlockSize at *
      omega
    rw [h1, Nat.mul_one, Nat.max_self]
  · rw [if_neg hc]
    have hmod2 : (n + 32 + kMinBlockSize - 1) % U64 = n + 32 + kMinBlockSize - 1 := by
      apply Nat.mod_eq_of_lt
      unfold kMinBlockSize at *
      omega
    rw [hmod2]
    have hle : kMinBlockSize * ((n + 32 + kMinBlockSize - 1) / kMinBlockSize) ≤
        n + 32 + kMinBlockSize - 1 := by
      rw [Nat.mul_comm]
      exact Nat.div_mul_le_self _ _
    have hlt : kMinBlockSize * ((n + 32 + kMinBlockSize - 1) / kMinBlockSize) < U64 := by
      omega
    rw [Nat.mod_eq_of_lt hlt]
    have hge : kMinBlockSize ≤ kMinBlockSize * ((n + 32 + kMinBlockSize - 1) / kMinBlockSize) := by
      have h1 : 1 ≤ (n + 32 + kMinBlockSize - 1) / kMinBlockSize := by
        apply Nat.le_div_iff_mul_le (by unfold kMinBlockSize; omega) |>.mpr
        unfold kMinBlockSize at *
        omega
      calc kMinBlockSize = kMinBlockSize * 1 := by rw [Nat.mul_one]
        _ ≤ _ := Nat.mul_le_mul_left _ h1
    rw [Nat.max_eq_right hge]

/-- C8 witness: the formula at the concrete request size 1. -/
theorem round_size_formula_witness :
    1 + 32 + (kMinBlockSize - 1) < U64 ∧
    round_size 1 =
      max kMinBlockSize (kMinBlockSize * ((1 + 32 + kMinBlockSize - 1) / kMinBlockSize)) :=
  ⟨by decide, (round_size_formula 1 (by decide)).1⟩

/-- C3 counterexample: with `max_split_size_mb:21` (legal, the parser only
requires more than 20), the request of 21495776 bytes rounds to 21495808,
lands in the large pool, and a fresh driver segment of
`get_allocation_size = 23068672` bytes (2 MiB rounding) is at least
`max_split_size = 22020096`, yet the split step of malloc is taken on it:
a block of size above `max_split_size` is split. -/
theorem oversize_block_split_counterexample :
    get_pool (round_size 21495776) = PoolKind.large ∧
    21 * 1024 * 1024 ≤ get_allocation_size (round_size 21495776) ∧
    should_split false (get_allocation_size (round_size 21495776))
      (21 * 1024 * 1024) (round_size 21495776) = true := by
  decide

/-- C3 (amended): the split step of malloc is never taken when the request
size is at least `max_split_size`, and a block handed out by
`get_free_block` for a request below `max_split_size` always has size below
`max_split_size` (so no pool block of size at least `max_split_size` is ever
split); only a freshly driver-allocated segment can exceed `max_split_size`
for a smaller request, through 2 MiB rounding, and be split. -/
theorem oversize_request_never_split (max_split : Nat) (gc_active : Bool)
    (pool : List Block) (strm q bsize : Nat) :
    (max_split ≤ q → should_split false bsize max_split q = false) ∧
    (∀ b rest, q < max_split →
      get_free_block max_split gc_active pool strm q = (some b, rest) →
      b.size < max_split) := by
  constructor
  · exact should_split_false_of_le bsize max_split q
  · intro b rest hq hget
    simp only [get_free_block] at hget
    cases hlb : lowerBound ⟨strm, q, 0, 0⟩ (bump_gc gc_active pool) with
    | none =>
      rw [hlb] at hget
      simp at hget
    | some e =>
      rw [hlb] at hget
      dsimp only at hget
      by_cases h1 : e.stream ≠ strm
      · rw [if_pos h1] at hget
        simp at hget
      · rw [if_neg h1] at hget
        by_cases h2 : q < max_split ∧ max_split ≤ e.size
        · rw [if_pos h2] at hget
          simp at hget
        · rw [if_neg h2] at hget
          by_cases h3 : max_split ≤ q ∧ (q + kLargeBuffer) % U64 ≤ e.size
          · rw [if_pos h3] at hget
            simp at hget
          · rw [if_neg h3] at hget
            simp only [Prod.mk.injEq, Option.some.injEq] at hget
            obtain ⟨hb, -⟩ := hget
            have hbsize : b.size = e.size := by
              rw [← hb]
            push_neg at h2
            rw [hbsize]
            exact h2 hq

/-- C3 witness: the amended claim at the counterexample's own numbers (for
the first part) and at a small in-pool block (for the second part). -/
theorem oversize_request_never_split_witness :
    should_split false 23068672 22020096 22020096 = false ∧
    Block.size ⟨1, 4096, 100, 0⟩ < 22020096 :=
  ⟨(oversize_request_never_split 22020096 false [] 1 22020096 23068672).1 (by decide),
   (oversize_request_never_split 22020096 false [⟨1, 4096, 100, 0⟩] 1 512 0).2
     ⟨1, 4096, 100, 0⟩ [] (by decide) (by decide)⟩

/-- C9: in the scalar overload of the in-place `xlogy_`, on the branch where
`self` fails the contiguity check, the destination tensor passed to the
Xlogy kernel call is the local `result` inside its own initialiser — the
name is not bound at the point of use and is exactly the name being bound by
that statement.  The tensor-tensor overload's same branch has no such use. -/
theorem xlogy_inplace_scalar_uninitialized_result :
    firstUnboundDest ["self", "other"] xlogy_inplace_scalar_branch =
      some ("result", "result") ∧
    firstUnboundDest ["self", "other"] xlogy_inplace_tensor_branch = none := by
  decide

/-- C10: freeing the null pointer returns at once with no error and the
whole allocator state — the map of issued pointers and the device state with
its pools, active set, event deques and statistics — is returned unchanged. -/
theorem raw_delete_null_noop {α : Type} (devFree : DeviceState → α → DeviceState)
    (st : THNState α) :
    thn_free devFree st 0 = Except.ok st :=
  rfl

/-- C6 counterexample: the null pointer is a pointer the allocator never
issued, yet `free` (the body of `raw_delete`) and `eraseStream` return
without any error on it; only `getBaseAllocation` raises. -/
theorem invalid_pointer_counterexample :
    thn_free (fun d _ => d) (⟨[], DeviceState.empty⟩ : THNState Unit) 0 =
      Except.ok ⟨[], DeviceState.empty⟩ ∧
    thn_eraseStream (fun d _ _ => d) (⟨[], DeviceState.empty⟩ : THNState Unit) 0 7 =
      Except.ok ⟨[], DeviceState.empty⟩ :=
  ⟨rfl, rfl⟩

/-- C6 (amended): for every non-null pointer the allocator did not issue,
`free`, `getBaseAllocation` and `eraseStream` all raise the fatal
"invalid device pointer" error; the null pointer is special-cased to a
silent no-op by `free` and `eraseStream`. -/
theorem invalid_pointer_fatal {α β : Type} (devFree : DeviceState → α → DeviceState)
    (devBase : DeviceState → α → β) (devErase : DeviceState → α → Nat → DeviceState)
    (st : THNState α) (p strm : Nat) (hp : p ≠ 0)
    (hmiss : get_allocated_block st p = none) :
    thn_free devFree st p = Except.error "invalid device pointer" ∧
    thn_getBaseAllocation devBase st p = Except.error "invalid device pointer" ∧
    thn_eraseStream devErase st p strm = Except.error "invalid device pointer" := by
  refine ⟨?_, ?_, ?_⟩
  · unfold thn_free
    rw [if_neg hp, hmiss]
  · unfold thn_getBaseAllocation
    rw [hmiss]
  · unfold thn_eraseStream
    rw [if_neg hp, hmiss]

/-- C6 witness: the amended claim at the concrete unissued pointer 5 in an
allocator that issued nothing. -/
theorem invalid_pointer_fatal_witness :
    thn_free (fun d _ => d) (⟨[], DeviceState.empty⟩ : THNState Unit) 5 =
      Except.error "invalid device pointer" ∧
    thn_getBaseAllocation (fun _ _ => (0 : Nat)) (⟨[], DeviceState.empty⟩ : THNState Unit) 5 =
      Except.error "invalid device pointer" ∧
    thn_eraseStream (fun d _ _ => d) (⟨[], DeviceState.empty⟩ : THNState Unit) 5 7 =
      Except.error "invalid device pointer" :=
  invalid_pointer_fatal (fun d _ => d) (fun _ _ => (0 : Nat)) (fun d _ _ => d)
    ⟨[], DeviceState.empty⟩ 5 7 (by decide) rfl

/-- C1: at a state that triggers the fragmentation GC (fraction set,
positive threshold, allocated memory above the cast threshold, one unsplit
large block), the GC's driver trace is a device synchronisation followed by
the release of the unsplit block — contradicting both the spec sentence and
the function's own comment that it does not synchronise. -/
theorem gc_synchronizes_device :
    garbage_collect_cached_blocks 0
      ⟨[⟨kLargeBuffer, false, 0⟩], kLargeBuffer⟩ =
      (⟨[], 0⟩, [DriverCall.syncDevice, DriverCall.free kLargeBuffer]) := by
  rfl

/-- C4 counterexample: with the consumer prevented from dequeuing, the
4096th producer call already finds the full-test true and fails — the ring
does not accept 4096 records. -/
theorem ring_full_counterexample : writeN kQueueCapacity = none := by
  have h4095 := writeN_eq 4095 (by decide)
  have hstep : writeN kQueueCapacity = WriteQueue ⟨4095, 0⟩ := by
    rw [show kQueueCapacity = 4095 + 1 from rfl, writeN, h4095]
  rw [hstep]
  decide

/-- C4 (amended): the submission ring accepts exactly 4095 records — one
slot fewer than the 4096 capacity, because the full-test
`((write+1) & 4095) == read` sacrifices a slot to distinguish full from
empty.  Each of the first 4095 producer calls succeeds with the full-test
still false beforehand, after the 4095th the full-test is true, and the
4096th call fails (and would block on the write-side wake primitive). -/
theorem ring_accepts_4095 (k : Nat) (hk : k < kQueueCapacity - 1) :
    (writeN k = some ⟨k, 0⟩ ∧ IsFullQueue ⟨k, 0⟩ = false) ∧
    (writeN (kQueueCapacity - 1) = some ⟨kQueueCapacity - 1, 0⟩ ∧
      IsFullQueue ⟨kQueueCapacity - 1, 0⟩ = true) ∧
    writeN kQueueCapacity = none := by
  refine ⟨⟨writeN_eq k (by omega), ?_⟩, ⟨writeN_eq _ (by decide), by decide⟩, ?_⟩
  · unfold IsFullQueue
    rw [mask_eq_mod]
    have hlt : k + 1 < kQueueCapacity := by
      unfold kQueueCapacity at *
      omega
    rw [Nat.mod_eq_of_lt hlt]
    simp
  · have h4095 := writeN_eq 4095 (by decide)
    have hstep : writeN kQueueCapacity = WriteQueue ⟨4095, 0⟩ := by
      rw [show kQueueCapacity = 4095 + 1 from rfl, writeN, h4095]
    rw [hstep]
    decide

/-- C4 witness: the amended claim at the concrete count 7. -/
theorem ring_accepts_4095_witness :
    writeN 7 = some ⟨7, 0⟩ ∧ IsFullQueue ⟨7, 0⟩ = false :=
  (ring_accepts_4095 7 (by decide)).1

theorem bump_gc_sorted (gc_active : Bool) (pool : List Block)
    (h : PoolSorted pool) : PoolSorted (bump_gc gc_active pool) := by
  cases gc_active with
  | false => simpa [bump_gc] using h
  | true =>
    show (pool.map _).Pairwise _
    exact List.Pairwise.map _ (fun a b hab => hab) h

theorem bump_gc_mem (gc_active : Bool) (pool : List Block) (b : Block)
    (hb : b ∈ pool) :
    ∃ b1, b1 ∈ bump_gc gc_active pool ∧ b1.stream = b.stream ∧
      b1.size = b.size := by
  cases gc_active with
  | false => exact ⟨b, by simpa [bump_gc] using hb, rfl, rfl⟩
  | true =>
    refine ⟨{ b with gc_count := b.gc_count + 1 }, ?_, rfl, rfl⟩
    show { b with gc_count := b.gc_count + 1 } ∈
      pool.map (fun x => { x with gc_count := x.gc_count + 1 })
    exact List.mem_map_of_mem _ hb

theorem lowerBound_min (key b : Block) (l : List Block) (hs : PoolSorted l)
    (hb : b ∈ l) (hblt : blockLt b key = false) :
    ∃ e, lowerBound key l = some e ∧ blockLt e key = false ∧
      (e = b ∨ blockLt e b = true) := by
  induction l with
  | nil => cases hb
  | cons a t ih =>
    unfold PoolSorted at hs
    rw [List.pairwise_cons] at hs
    obtain ⟨hhead, htail⟩ := hs
    by_cases ha : blockLt a key = true
    · have hbt : b ∈ t := by
        rcases List.mem_cons.mp hb with hba | h
        · rw [hba] at hblt
          rw [ha] at hblt
          cases hblt
        · exact h
      obtain ⟨e, he, hek, heb⟩ := ih htail hbt
      refine ⟨e, ?_, hek, heb⟩
      rw [lowerBound, ha]
      simpa using he
    · have ha' : blockLt a key = false := by
        cases hk : blockLt a key
        · rfl
        · exact absurd hk ha
      refine ⟨a, by simp [lowerBound, ha'], ha', ?_⟩
      rcases List.mem_cons.mp hb with hba | h
      · exact Or.inl hba.symm
      · exact Or.inr (hhead b h)

theorem blockLt_false_of_key (b : Block) (strm q g : Nat)
    (hstream : b.stream = strm) (hsize : q ≤ b.size) :
    blockLt b ⟨strm, q, 0, g⟩ = false := by
  unfold blockLt
  rw [hstream]
  split_ifs with h1 h2
  · exact absurd rfl h1
  · simp only [decide_eq_false_iff_not]
    omega
  · simp

theorem key_le_of_not_blockLt (e : Block) (strm q g : Nat)
    (h : blockLt e ⟨strm, q, 0, g⟩ = false) :
    strm ≤ e.stream ∧ (e.stream = strm → q ≤ e.size) := by
  unfold blockLt at h
  dsimp only at h
  split_ifs at h with h1 h2
  · simp only [decide_eq_false_iff_not] at h
    exact ⟨by omega, fun hc => absurd hc h1⟩
  · simp only [decide_eq_false_iff_not] at h
    have h1' := not_not.mp h1
    exact ⟨by omega, fun _ => by omega⟩
  · have h1' := not_not.mp h1
    have h2' := not_not.mp h2
    exact ⟨by omega, fun _ => by omega⟩

theorem blockLt_stream_size (e b : Block) (h : blockLt e b = true) :
    e.stream < b.stream ∨ (e.stream = b.stream ∧ e.size ≤ b.size) := by
  unfold blockLt at h
  split_ifs at h with h1 h2
  · exact Or.inl (of_decide_eq_true h)
  · exact Or.inr ⟨not_not.mp h1, Nat.le_of_lt (of_decide_eq_true h)⟩
  · exact Or.inr ⟨not_not.mp h1, Nat.le_of_eq (not_not.mp h2)⟩

/-- C2 counterexample: with `max_split_size = 22020096` (21 MiB) and the
oversize rounded request `Q = 22020096` (realizable, as the rounding of a
21-MiB-minus-32 request), a free block of size exactly `Q + 20 MiB` on the
request stream — inside the claim's inclusive interval — is rejected by
`get_free_block`: the source tests `candidate >= size + kLargeBuffer`. -/
theorem get_free_block_inclusive_counterexample :
    round_size 22020064 = 22020096 ∧
    (get_free_block 22020096 false [⟨1, 22020096 + kLargeBuffer, 100, 0⟩]
      1 22020096).1 = none := by
  decide

/-- C2 (amended): for an oversize rounded request `Q ≥ max_split_size` whose
bound `Q + 20 MiB` does not overflow `size_t`, whenever the free pool holds
a block on the request stream with size in the half-open interval
`[Q, Q + 20 MiB)`, `get_free_block` accepts and returns such a block, and
the split step is not taken on it; a candidate of size exactly `Q + 20 MiB`
is rejected. -/
theorem get_free_block_oversize (max_split : Nat) (gc_active : Bool)
    (pool : List Block) (strm q : Nat) (b : Block)
    (hsorted : PoolSorted pool) (hq : max_split ≤ q)
    (hof : q + kLargeBuffer < U64) (hb : b ∈ pool)
    (hstream : b.stream = strm) (hlo : q ≤ b.size)
    (hhi : b.size < q + kLargeBuffer) :
    ∃ e rest, get_free_block max_split gc_active pool strm q = (some e, rest) ∧
      e.stream = strm ∧ q ≤ e.size ∧ e.size < q + kLargeBuffer ∧
      should_split false e.size max_split q = false := by
  obtain ⟨b1, hb1mem, hb1s, hb1z⟩ := bump_gc_mem gc_active pool b hb
  have hs1 : PoolSorted (bump_gc gc_active pool) :=
    bump_gc_sorted gc_active pool hsorted
  have hb1key : blockLt b1 ⟨strm, q, 0, 0⟩ = false :=
    blockLt_false_of_key b1 strm q 0 (by rw [hb1s, hstream])
      (by rw [hb1z]; exact hlo)
  obtain ⟨e, he, hek, heb⟩ :=
    lowerBound_min ⟨strm, q, 0, 0⟩ b1 (bump_gc gc_active pool) hs1 hb1mem hb1key
  have hkey := key_le_of_not_blockLt e strm q 0 hek
  have hb1strm : b1.stream = strm := by rw [hb1s, hstream]
  have hestream : e.stream = strm := by
    rcases heb with rfl | hlt
    · exact hb1strm
    · rcases blockLt_stream_size e b1 hlt with hcase | ⟨hcase, -⟩
      · omega
      · rw [hcase, hb1strm]
  have hesize_lo : q ≤ e.size := hkey.2 hestream
  have hesize_le : e.size ≤ b1.size := by
    rcases heb with rfl | hlt
    · exact Nat.le_refl _
    · rcases blockLt_stream_size e b1 hlt with hcase | ⟨-, hcase⟩
      · omega
      · exact hcase
  have hesize_hi : e.size < q + kLargeBuffer := by
    have hb1hi : b1.size < q + kLargeBuffer := by rw [hb1z]; exact hhi
    omega
  refine ⟨{ e with gc_count := 0 }, (bump_gc gc_active pool).erase e, ?_,
    hestream, hesize_lo, hesize_hi, should_split_false_of_le _ _ _ hq⟩
  have hmod : (q + kLargeBuffer) % U64 = q + kLargeBuffer := Nat.mod_eq_of_lt hof
  simp only [get_free_block]
  rw [he]
  dsimp only
  rw [if_neg (by simp [hestream]), if_neg (by omega), if_neg (by rw [hmod]; omega)]

/-- C2 witness: the amended claim with the fraction GC active, at a
singleton pool holding an exactly-fitting oversize block. -/
theorem get_free_block_oversize_witness :
    ∃ e rest,
      get_free_block 22020096 true [⟨1, 22020096, 100, 5⟩] 1 22020096 =
        (some e, rest) ∧
      e.stream = 1 ∧ 22020096 ≤ e.size ∧ e.size < 22020096 + kLargeBuffer ∧
      should_split false e.size 22020096 22020096 = false :=
  get_free_block_oversize 22020096 true [⟨1, 22020096, 100, 5⟩] 1 22020096
    ⟨1, 22020096, 100, 5⟩ (by simp [PoolSorted]) (by decide) (by decide) (by simp)
    rfl (by decide) (by decide)

theorem ringSlots_empty (s : RingIdx) (h : s.write_idx = s.read_idx) :
    ringSlots s = [] := by
  unfold ringSlots
  have hc : (kQueueCapacity + s.write_idx - s.read_idx) % kQueueCapacity = 0 := by
    unfold kQueueCapacity
    omega
  rw [hc]
  rfl

theorem ringSlots_cons (s : RingIdx) (hw : s.write_idx < kQueueCapacity)
    (hr : s.read_idx < kQueueCapacity) (hne : s.write_idx ≠ s.read_idx) :
    ringSlots s = s.read_idx ::
      ringSlots ⟨s.write_idx, (s.read_idx + 1) % kQueueCapacity⟩ := by
  unfold ringSlots
  have hcount : (kQueueCapacity + s.write_idx - s.read_idx) % kQueueCapacity =
      ((kQueueCapacity + s.write_idx - ((s.read_idx + 1) % kQueueCapacity)) %
        kQueueCapacity) + 1 := by
    unfold kQueueCapacity at *
    omega
  rw [hcount, List.range_succ_eq_map]
  simp only [List.map_cons, List.map_map]
  congr 1
  · show (s.read_idx + 0) % kQueueCapacity = s.read_idx
    rw [Nat.add_zero]
    exact Nat.mod_eq_of_lt hr
  · apply List.map_congr_left
    intro i _
    show (s.read_idx + (i + 1)) % kQueueCapacity =
      ((s.read_idx + 1) % kQueueCapacity + i) % kQueueCapacity
    rw [Nat.mod_add_mod]
    congr 1
    omega

theorem drainRelease_spec (fuel : Nat) (s : RingIdx)
    (hw : s.write_idx < kQueueCapacity) (hr : s.read_idx < kQueueCapacity)
    (hfuel : (kQueueCapacity + s.write_idx - s.read_idx) % kQueueCapacity < fuel) :
    drainRelease fuel s =
      (⟨s.write_idx, s.write_idx⟩, (ringSlots s).map QEvent.release) := by
  induction fuel generalizing s with
  | zero => omega
  | succ n ih =>
    by_cases hemp : s.write_idx = s.read_idx
    · have he : IsEmptyQueue s = true := by simp [IsEmptyQueue, hemp]
      rw [drainRelease, he]
      rw [ringSlots_empty s hemp]
      simp only [List.map_nil, if_true]
      refine congrArg (fun t => (t, ([] : List QEvent))) ?_
      cases s
      simp_all
    · have he : IsEmptyQueue s = false := by simp [IsEmptyQueue, hemp]
      rw [drainRelease, he]
      simp only [Bool.false_eq_true, if_false]
      rw [mask_eq_mod]
      have hr' : (s.read_idx + 1) % kQueueCapacity < kQueueCapacity :=
        Nat.mod_lt _ (by decide)
      have hfuel' : (kQueueCapacity + s.write_idx -
          (s.read_idx + 1) % kQueueCapacity) % kQueueCapacity < n := by
        unfold kQueueCapacity at *
        omega
      rw [ih ⟨s.write_idx, (s.read_idx + 1) % kQueueCapacity⟩ hw hr' hfuel']
      rw [ringSlots_cons s hw hr hemp]
      rfl

/-- C5: when the execute callback returns non-zero for the record at the
consumer's read index (ring non-empty, indices in range), ReadQueue invokes
the release callback on every record remaining in the ring in order — and
the execute callback on no further record — until the ring is empty (read
index caught up with write index), then releases the queue's resources and
raises the fatal error. -/
theorem readqueue_kernel_failure (execRet : Nat → Int) (s : RingIdx)
    (hw : s.write_idx < kQueueCapacity) (hr : s.read_idx < kQueueCapacity)
    (hne : s.write_idx ≠ s.read_idx) (hfail : execRet s.read_idx ≠ 0) :
    ReadQueue execRet s =
      (⟨s.write_idx, s.write_idx⟩,
        QEvent.call s.read_idx :: ((ringSlots s).map QEvent.release ++
          [QEvent.releaseResource, QEvent.fatalError]), false) ∧
    IsEmptyQueue ⟨s.write_idx, s.write_idx⟩ = true := by
  refine ⟨?_, by simp [IsEmptyQueue]⟩
  unfold ReadQueue
  have he : IsEmptyQueue s = false := by simp [IsEmptyQueue, hne]
  rw [he]
  simp only [Bool.false_eq_true, if_false]
  rw [if_pos hfail]
  have hcount : (kQueueCapacity + s.write_idx - s.read_idx) % kQueueCapacity <
      kQueueCapacity := Nat.mod_lt _ (by decide)
  rw [drainRelease_spec kQueueCapacity s hw hr hcount]

/-- C5 witness: a concrete failing consumer state with three queued records
wrapping around the end of the ring. -/
theorem readqueue_kernel_failure_witness :
    ReadQueue (fun _ => (1 : Int)) ⟨2, 4095⟩ =
      (⟨2, 2⟩, [QEvent.call 4095, QEvent.release 4095, QEvent.release 0,
        QEvent.release 1, QEvent.releaseResource, QEvent.fatalError], false) := by
  have h := readqueue_kernel_failure (fun _ => (1 : Int)) ⟨2, 4095⟩
    (by decide) (by decide) (by decide) (by decide)
  rw [h.1]
  decide

theorem update_stat_le (s : Stat) (amt : Int) :
    (update_stat s amt).current ≤ (update_stat s amt).peak := by
  simp [update_stat]

theorem update_stat_balanced (s : Stat) (amt : Int)
    (h : s.allocated - s.freed = s.current) :
    (update_stat s amt).allocated - (update_stat s amt).freed =
      (update_stat s amt).current := by
  simp only [update_stat]
  split_ifs <;> omega

theorem opt_update_le (c : Bool) (s : Stat) (amt : Int) (h : s.current ≤ s.peak) :
    (if c then update_stat s amt else s).current ≤
      (if c then update_stat s amt else s).peak := by
  cases c
  · simpa using h
  · simpa using update_stat_le s amt

theorem opt_update_balanced (c : Bool) (s : Stat) (amt : Int)
    (h : s.allocated - s.freed = s.current) :
    (if c then update_stat s amt else s).allocated -
      (if c then update_stat s amt else s).freed =
      (if c then update_stat s amt else s).current := by
  cases c
  · simpa using h
  · simpa using update_stat_balanced s amt h

theorem apply_ops_le (ops : List StatOp) (a : StatArray)
    (h : a.aggregate.current ≤ a.aggregate.peak ∧
      a.small.current ≤ a.small.peak ∧ a.large.current ≤ a.large.peak) :
    (apply_stat_ops a ops).aggregate.current ≤ (apply_stat_ops a ops).aggregate.peak ∧
    (apply_stat_ops a ops).small.current ≤ (apply_stat_ops a ops).small.peak ∧
    (apply_stat_ops a ops).large.current ≤ (apply_stat_ops a ops).large.peak := by
  induction ops generalizing a with
  | nil => exact h
  | cons op rest ih =>
    rw [apply_stat_ops, List.foldl_cons]
    apply ih
    cases op with
    | update sel amt =>
      exact ⟨opt_update_le sel.aggregate _ amt h.1,
        opt_update_le sel.small _ amt h.2.1,
        opt_update_le sel.large _ amt h.2.2⟩
    | resetAccumulated => exact h
    | resetPeak => exact ⟨Int.le_refl _, Int.le_refl _, Int.le_refl _⟩

theorem apply_ops_sum (ops : List StatOp) (a : StatArray)
    (hdisc : ∀ op ∈ ops, disciplined op = true)
    (h : a.aggregate.current = a.small.current + a.large.current ∧
      a.aggregate.allocated = a.small.allocated + a.large.allocated ∧
      a.aggregate.freed = a.small.freed + a.large.freed) :
    (apply_stat_ops a ops).aggregate.current =
      (apply_stat_ops a ops).small.current + (apply_stat_ops a ops).large.current ∧
    (apply_stat_ops a ops).aggregate.allocated =
      (apply_stat_ops a ops).small.allocated + (apply_stat_ops a ops).large.allocated ∧
    (apply_stat_ops a ops).aggregate.freed =
      (apply_stat_ops a ops).small.freed + (apply_stat_ops a ops).large.freed := by
  induction ops generalizing a with
  | nil => exact h
  | cons op rest ih =>
    rw [apply_stat_ops, List.foldl_cons]
    have hrest : ∀ o ∈ rest, disciplined o = true := fun o ho =>
      hdisc o (List.mem_cons_of_mem _ ho)
    apply ih _ hrest
    cases op with
    | update sel amt =>
      have hd := hdisc _ (List.mem_cons_self _ _)
      simp only [disciplined, Bool.or_eq_true, beq_iff_eq] at hd
      rcases hd with rfl | rfl
      · simp only [apply_stat_op, update_stat_array, pool_stat_types, if_true,
          Bool.false_eq_true, if_false, update_stat]
        refine ⟨by omega, ?_, ?_⟩ <;> split_ifs <;> omega
      · simp only [apply_stat_op, update_stat_array, pool_stat_types, if_true,
          Bool.false_eq_true, if_false, update_stat]
        refine ⟨by omega, ?_, ?_⟩ <;> split_ifs <;> omega
    | resetAccumulated =>
      simp only [apply_stat_op, reset_accumulated_stat]
      exact ⟨h.1, by omega, by omega⟩
    | resetPeak =>
      simp only [apply_stat_op, reset_peak_stat]
      exact h

theorem apply_ops_balanced (ops : List StatOp) (a : StatArray)
    (hno : StatOp.resetAccumulated ∉ ops)
    (h : a.aggregate.allocated - a.aggregate.freed = a.aggregate.current ∧
      a.small.allocated - a.small.freed = a.small.current ∧
      a.large.allocated - a.large.freed = a.large.current) :
    (apply_stat_ops a ops).aggregate.allocated - (apply_stat_ops a ops).aggregate.freed =
      (apply_stat_ops a ops).aggregate.current ∧
    (apply_stat_ops a ops).small.allocated - (apply_stat_ops a ops).small.freed =
      (apply_stat_ops a ops).small.current ∧
    (apply_stat_ops a ops).large.allocated - (apply_stat_ops a ops).large.freed =
      (apply_stat_ops a ops).large.current := by
  induction ops generalizing a with
  | nil => exact h
  | cons op rest ih =>
    rw [apply_stat_ops, List.foldl_cons]
    have hno' : StatOp.resetAccumulated ∉ rest := by
      intro hc
      exact hno (List.mem_cons_of_mem _ hc)
    apply ih _ hno'
    cases op with
    | update sel amt =>
      exact ⟨opt_update_balanced sel.aggregate _ amt h.1,
        opt_update_balanced sel.small _ amt h.2.1,
        opt_update_balanced sel.large _ amt h.2.2⟩
    | resetAccumulated =>
      exact absurd (List.mem_cons_self _ _) hno
    | resetPeak =>
      exact h

/-- C7 counterexample: after one allocation of 512 bytes followed by
`reset_accumulated_stats`, the aggregate allocated-bytes stat has
`allocated - freed = 0` while `current = 512`: the claimed identity
`allocated - freed == current` does not survive the reset, which zeroes the
accumulators but keeps `current`. -/
theorem stat_balance_counterexample :
    ¬ ((apply_stat_ops StatArray.zero
        [StatOp.update (pool_stat_types PoolKind.small) 512,
          StatOp.resetAccumulated]).aggregate.allocated -
      (apply_stat_ops StatArray.zero
        [StatOp.update (pool_stat_types PoolKind.small) 512,
          StatOp.resetAccumulated]).aggregate.freed =
      (apply_stat_ops StatArray.zero
        [StatOp.update (pool_stat_types PoolKind.small) 512,
          StatOp.resetAccumulated]).aggregate.current) := by
  decide

/-- C7 (amended): from a fresh stat array, after any history of allocator
stat operations — updates under arbitrary stat-type selections, including
the indeterminate selection read from the default-initialised `StatTypes`
of `release_block`, plus the two resets — `current ≤ peak` holds for every
component, and `allocated - freed = current` holds for every component
whenever no `reset_accumulated_stats` occurred in the history (that reset
zeroes the accumulators but keeps `current`).  The small- plus large-pool
sums equal the aggregate for `current`, `allocated` and `freed` on the
histories whose every update is disciplined — selecting exactly
`{AGGREGATE, one pool}` as every initialised call site does; the source
does not guarantee this for updates issued by `release_block`, whose
selection is indeterminate. -/
theorem stat_coherence (ops : List StatOp) :
    ((apply_stat_ops StatArray.zero ops).aggregate.current ≤
        (apply_stat_ops StatArray.zero ops).aggregate.peak ∧
      (apply_stat_ops StatArray.zero ops).small.current ≤
        (apply_stat_ops StatArray.zero ops).small.peak ∧
      (apply_stat_ops StatArray.zero ops).large.current ≤
        (apply_stat_ops StatArray.zero ops).large.peak) ∧
    (StatOp.resetAccumulated ∉ ops →
      (apply_stat_ops StatArray.zero ops).aggregate.allocated -
        (apply_stat_ops StatArray.zero ops).aggregate.freed =
        (apply_stat_ops StatArray.zero ops).aggregate.current ∧
      (apply_stat_ops StatArray.zero ops).small.allocated -
        (apply_stat_ops StatArray.zero ops).small.freed =
        (apply_stat_ops StatArray.zero ops).small.current ∧
      (apply_stat_ops StatArray.zero ops).large.allocated -
        (apply_stat_ops StatArray.zero ops).large.freed =
        (apply_stat_ops StatArray.zero ops).large.current) ∧
    ((∀ op ∈ ops, disciplined op = true) →
      (apply_stat_ops StatArray.zero ops).aggregate.current =
        (apply_stat_ops StatArray.zero ops).small.current +
        (apply_stat_ops StatArray.zero ops).large.current ∧
      (apply_stat_ops StatArray.zero ops).aggregate.allocated =
        (apply_stat_ops StatArray.zero ops).small.allocated +
        (apply_stat_ops StatArray.zero ops).large.allocated ∧
      (apply_stat_ops StatArray.zero ops).aggregate.freed =
        (apply_stat_ops StatArray.zero ops).small.freed +
        (apply_stat_ops StatArray.zero ops).large.freed) :=
  ⟨apply_ops_le ops StatArray.zero (by decide),
    fun hno => apply_ops_balanced ops StatArray.zero hno (by decide),
    fun hdisc => apply_ops_sum ops StatArray.zero hdisc (by decide)⟩

/-- C7 witness: the coherence invariants at the concrete reset-free,
disciplined history of one small-pool allocation and one large-pool free. -/
theorem stat_coherence_witness :
    ((apply_stat_ops StatArray.zero
      [StatOp.update (pool_stat_types PoolKind.small) 512,
        StatOp.update (pool_stat_types PoolKind.large) (-12)]).aggregate.allocated -
      (apply_stat_ops StatArray.zero
        [StatOp.update (pool_stat_types PoolKind.small) 512,
          StatOp.update (pool_stat_types PoolKind.large) (-12)]).aggregate.freed =
      (apply_stat_ops StatArray.zero
        [StatOp.update (pool_stat_types PoolKind.small) 512,
          StatOp.update (pool_stat_types PoolKind.large) (-12)]).aggregate.current) ∧
    ((apply_stat_ops StatArray.zero
      [StatOp.update (pool_stat_types PoolKind.small) 512,
        StatOp.update (pool_stat_types PoolKind.large) (-12)]).aggregate.current =
      (apply_stat_ops StatArray.zero
        [StatOp.update (pool_stat_types PoolKind.small) 512,
          StatOp.update (pool_stat_types PoolKind.large) (-12)]).small.current +
      (apply_stat_ops StatArray.zero
        [StatOp.update (pool_stat_types PoolKind.small) 512,
          StatOp.update (pool_stat_types PoolKind.large) (-12)]).large.current) :=
  ⟨((stat_coherence [StatOp.update (pool_stat_types PoolKind.small) 512,
      StatOp.update (pool_stat_types PoolKind.large) (-12)]).2.1 (by decide)).1,
    ((stat_coherence [StatOp.update (pool_stat_types PoolKind.small) 512,
      StatOp.update (pool_stat_types PoolKind.large) (-12)]).2.2 (by decide)).1⟩

end NPUAlloc
